import Mathlib

/-!
Verification of the go_autowired dependency-injection container.

The repository contains two resolution engines:
* the Scope-based engine (package file with Scope = Singleton | Prototype |
  Request, Container.Resolve / resolveSingleton / resolveRequest / construct /
  AutoWire / Destroy), embedded below as namespace AutowiredV1;
* the Lifetime-based engine (autowired.go, with Lifetime = Singleton | Scoped |
  Transient, resolveDependencies / Start / Stop), embedded as AutowiredV2.

Go values are abstracted as follows: reflect.Type becomes a numeric type id
(Nat); instances are numeric tags handed out by a freshness counter in the
container state (distinct allocations receive distinct tags, mirroring
distinct heap addresses); constructors are described by their reflective
shape (parameter type list, number and kinds of return values) plus a flag
saying whether the recipe returns a failure; lifecycle hooks are described by
presence/failure flags.  All stateful Go code is embedded as explicit state
passing over the container record, and recursion is fuel-bounded (a distinct
outOfFuel error marks exhaustion; concrete evaluations use ample fuel).
-/

deriving instance DecidableEq for Except

namespace AutowiredV1

/-- Scope of a registration: Singleton | Prototype | Request (source const block). -/
inductive Scope where
  | singleton
  | prototype
  | request
deriving DecidableEq

/-- Reflective description of the lifecycle-hook bundle STORED with a
registration.  Each field models one hook of LifecycleHooks: none means the
hook is absent, some b means the hook is present and b tells whether a call
to it would return a failure.  Storage is real (a LifecycleHooks value with
interface-typed hooks passes the ConvertibleTo filter of processOptions),
but the engine's runHook can never invoke any of them (see runHookM). -/
structure HookSpec where
  onInit : Option Bool
  onStart : Option Bool
  onDestroy : Option Bool
deriving DecidableEq

/-- Observable events, labelled with the type id of the registration
concerned: a recipe invocation (constructor.Call) or a lifecycle hook
invocation.  In this engine only ctorCalled events ever occur -- runHook
never invokes a hook (see runHookM) -- and the hook constructors exist so
that their absence from every trace can be stated and proved. -/
inductive Ev where
  | ctorCalled (t : Nat)
  | initHook (t : Nat)
  | startHook (t : Nat)
  | destroyHook (t : Nat)
deriving DecidableEq

/-- dependencyInfo: constructor (abstracted to its parameter type list and a
failure flag), scope, hooks, plus the mutable per-registration state: the
sync.Once guard (initDone), the atomic.Value instance slot (inst) and the
request-scope instancePool (an association list key -> instance). -/
structure DepInfo where
  params : List Nat
  scope : Scope
  hooks : Option HookSpec
  ctorFails : Bool
  initDone : Bool
  inst : Option Nat
  pool : List (Nat × Nat)
deriving DecidableEq

/-- Container: dependencies maps (type id, name) to dependencyInfo; resolving
is the container-wide currently-resolving type set (the sync.Map used for
cycle detection); fresh is the allocation counter handing out distinct tags;
trace records emitted events in order. -/
structure Ctr where
  deps : List ((Nat × String) × DepInfo)
  resolving : List Nat
  fresh : Nat
  trace : List Ev
deriving DecidableEq

/-- NewContainer: empty registry, empty resolving set. -/
def newContainer : Ctr := { deps := [], resolving := [], fresh := 0, trace := [] }

/-- Resolution-time errors.  Each constructor mirrors one fmt.Errorf site of
the source: circular carries exactly what the message "circular dependency
detected for type %v" carries (the single repeated type, not a path);
paramFailed mirrors the "failed to resolve parameter %d of type %v: %w"
wrapper; autoWireFailed mirrors "failed to autowire field %s: %w".
outOfFuel marks exhaustion of the recursion bound of the embedding. -/
inductive Err where
  | circular (t : Nat)
  | unregisteredType (t : Nat)
  | unregisteredName (t : Nat) (name : String)
  | constructionFailed
  | initFailed
  | startFailed
  | paramFailed (i : Nat) (t : Nat) (e : Err)
  | autoWireFailed (field : String) (e : Err)
  | outOfFuel
deriving DecidableEq

/-- Registration-time errors: "constructor must be a function" and
"constructor must return (T) or (T, error)". -/
inductive RegErr where
  | notFunction
  | invalidShape
deriving DecidableEq

/-- Reflective shape of a candidate constructor as Register inspects it:
whether it is a function, how many values it returns, and whether the second
return value implements error. -/
structure FuncShape where
  isFunc : Bool
  numOut : Nat
  out1IsError : Bool
deriving DecidableEq

/-- getDefaultName: the canonical default name derived from a type.  The
source lowercases the first rune of the Go type name; type names are
abstracted to numeric ids here, so the default name is the decimal string of
the id. -/
def defaultName (t : Nat) : String := toString t

/-- Membership test for the outer map c.dependencies[typ]. -/
def typeRegistered (c : Ctr) (t : Nat) : Bool :=
  c.deps.any (fun e => e.1.1 = t)

/-- Lookup of the inner map c.dependencies[typ][name]. -/
def findDep (c : Ctr) (t : Nat) (n : String) : Option DepInfo :=
  (c.deps.find? (fun e => e.1.1 = t ∧ e.1.2 = n)).map (fun e => e.2)

/-- Effective lookup name: the default name replaces the empty name. -/
def effName (t : Nat) (name : String) : String :=
  if name = "" then defaultName t else name

/-- getDependencyInfo: distinguishes a type with no registrations at all from
a missing name, and substitutes the default name for the empty name. -/
def getInfo (c : Ctr) (t : Nat) (name : String) : Except Err (String × DepInfo) :=
  if ¬ typeRegistered c t then .error (.unregisteredType t)
  else
    match findDep c t (effName t name) with
    | none => .error (.unregisteredName t (effName t name))
    | some info => .ok (effName t name, info)

/-- Write-back of a mutated dependencyInfo under its key. -/
def updateDep (c : Ctr) (t : Nat) (n : String) (info : DepInfo) : Ctr :=
  { c with deps := c.deps.map (fun e => if e.1.1 = t ∧ e.1.2 = n then (e.1, info) else e) }

/-- Store a registration, replacing any existing entry for the identity
(last write wins, as map assignment does). -/
def storeDep (c : Ctr) (t : Nat) (n : String) (info : DepInfo) : Ctr :=
  if c.deps.any (fun e => e.1.1 = t ∧ e.1.2 = n) then updateDep c t n info
  else { c with deps := c.deps ++ [((t, n), info)] }

/-- Event append helper. -/
def pushEv (c : Ctr) (e : Ev) : Ctr := { c with trace := c.trace ++ [e] }

/-- Removal of the cycle-detection marker (the deferred c.resolving.Delete). -/
def popResolving (c : Ctr) (t : Nat) : Ctr :=
  { c with resolving := c.resolving.erase t }

/-- Register: validates the constructor shape exactly as the source does
(must be a function; must not have zero returns; a second return must
implement error -- note the condition says nothing about three or more
returns), then stores a fresh dependencyInfo under the name from the options
(default when absent or empty) with the scope from the options (Singleton by
default). -/
def registerDep (c : Ctr) (shape : FuncShape) (outType : Nat) (params : List Nat)
    (ctorFails : Bool) (nameOpt : Option String) (scopeOpt : Option Scope)
    (hooksOpt : Option HookSpec) : Except RegErr Unit × Ctr :=
  if ¬ shape.isFunc then (.error .notFunction, c)
  else if shape.numOut = 0 ∨ (shape.numOut = 2 ∧ ¬ shape.out1IsError) then
    (.error .invalidShape, c)
  else
    let name :=
      match nameOpt with
      | some n => if n = "" then defaultName outType else n
      | none => defaultName outType
    let scope := scopeOpt.getD .singleton
    let info : DepInfo :=
      { params := params, scope := scope, hooks := hooksOpt, ctorFails := ctorFails,
        initDone := false, inst := none, pool := [] }
    (.ok (), storeDep c outType name info)

/-- runHook: looks the hook up with hooks.MethodByName(hookName) and returns
nil when no such method is found.  The stored hook bundles are values whose
type has OnInit/OnStart/OnDestroy as func-typed FIELDS (any type convertible
to LifecycleHooks has exactly those fields, and a Go type cannot also carry
same-named methods), and MethodByName only finds methods -- so the lookup
never succeeds and runHook always returns nil without invoking anything.
The hook description and the event label are therefore ignored: no event is
emitted and no failure is ever reported. -/
def runHookM (c : Ctr) (_hook : Option Bool) (_ev : Ev) : Except Unit Unit × Ctr :=
  (.ok (), c)

/-- Tail of construct after the recipe produced an instance: when a hook
bundle is attached, the source calls runHook for OnInit and then for OnStart
and would discard the instance on a failure (InitFailed / StartFailed).
Because runHook never finds a method to invoke (see runHookM), both calls
are silent no-ops and the error branches below are unreachable; they are
kept to mirror the source's control flow. -/
def runLifecycleHooks (c : Ctr) (t : Nat) (v : Nat) (hooksOpt : Option HookSpec) :
    Except Err Nat × Ctr :=
  match hooksOpt with
  | none => (.ok v, c)
  | some h =>
    match runHookM c h.onInit (.initHook t) with
    | (.error _, c4) => (.error .initFailed, c4)
    | (.ok _, c4) =>
      match runHookM c4 h.onStart (.startHook t) with
      | (.error _, c5) => (.error .startFailed, c5)
      | (.ok _, c5) => (.ok v, c5)

mutual

/-- Resolve: checks the container-wide resolving set (LoadOrStore) and fails
with the circular error when the type is already being resolved; otherwise
marks the type, looks the registration up, dispatches on scope, and removes
the marker on every exit (the deferred Delete). -/
def resolveP1 (fuel : Nat) (c : Ctr) (t : Nat) (name : String) :
    Except Err (Option Nat) × Ctr :=
  match fuel with
  | 0 => (.error .outOfFuel, c)
  | fuel + 1 =>
    if c.resolving.contains t then (.error (.circular t), c)
    else
      let c1 : Ctr := { c with resolving := t :: c.resolving }
      match getInfo c1 t name with
      | .error e => (.error e, popResolving c1 t)
      | .ok (n, info) =>
        let r := resolveDependency fuel c1 t n info
        (r.1, popResolving r.2 t)
termination_by structural fuel

/-- resolveDependency: scope dispatch.  Singleton runs the construction under
the once-guard, storing the instance only on success but consuming the guard
either way, and returns the instance slot as-is on later calls (the error
variable is left nil when the once body is skipped).  Prototype constructs
every time and caches nothing.  Request keys the instancePool by
getGoroutineID, which the source computes as the pointer of a freshly made
channel -- embedded faithfully as a fresh allocation tag per call. -/
def resolveDependency (fuel : Nat) (c : Ctr) (t : Nat) (n : String) (info : DepInfo) :
    Except Err (Option Nat) × Ctr :=
  match fuel with
  | 0 => (.error .outOfFuel, c)
  | fuel + 1 =>
    match info.scope with
    | .singleton =>
      if info.initDone then (.ok info.inst, c)
      else
        match constructP1 fuel c t info with
        | (.ok v, c') =>
          (.ok (some v), updateDep c' t n { info with initDone := true, inst := some v })
        | (.error e, c') =>
          (.error e, updateDep c' t n { info with initDone := true })
    | .prototype =>
      match constructP1 fuel c t info with
      | (.ok v, c') => (.ok (some v), c')
      | (.error e, c') => (.error e, c')
    | .request =>
      let key := c.fresh
      let c0 : Ctr := { c with fresh := c.fresh + 1 }
      match (info.pool.find? (fun e => e.1 = key)).map (fun e => e.2) with
      | some v => (.ok (some v), c0)
      | none =>
        match constructP1 fuel c0 t info with
        | (.ok v, c') =>
          (.ok (some v), updateDep c' t n { info with pool := info.pool ++ [(key, v)] })
        | (.error e, c') => (.error e, c')
termination_by structural fuel

/-- construct: resolves the constructor parameters recursively, invokes the
recipe (the call is recorded even when the recipe reports failure), then
calls runHook for OnInit and OnStart in that order -- calls that never
actually invoke anything (see runHookM). -/
def constructP1 (fuel : Nat) (c : Ctr) (t : Nat) (info : DepInfo) :
    Except Err Nat × Ctr :=
  match fuel with
  | 0 => (.error .outOfFuel, c)
  | fuel + 1 =>
    match resolveParamsP1 fuel c info.params 0 with
    | (.error e, c') => (.error e, c')
    | (.ok _, c') =>
      let c2 := pushEv c' (.ctorCalled t)
      if info.ctorFails then (.error .constructionFailed, c2)
      else
        let v := c2.fresh
        let c3 : Ctr := { c2 with fresh := c2.fresh + 1 }
        runLifecycleHooks c3 t v info.hooks
termination_by structural fuel

/-- resolveConstructorParams: resolves each parameter type in declared order
through the full Resolve entry point (no name option), wrapping the first
failure with the parameter index and type, fail-fast.  The resolved values
themselves are only passed to the recipe, which is abstracted, so the
accumulated list is dropped. -/
def resolveParamsP1 (fuel : Nat) (c : Ctr) (ps : List Nat) (i : Nat) :
    Except Err Unit × Ctr :=
  match fuel with
  | 0 => (.error .outOfFuel, c)
  | fuel + 1 =>
    match ps with
    | [] => (.ok (), c)
    | p :: rest =>
      match resolveP1 fuel c p "" with
      | (.error e, c') => (.error (.paramFailed i p e), c')
      | (.ok _, c') => resolveParamsP1 fuel c' rest (i + 1)
termination_by structural fuel

end

/-- Outcome of the teardown path: an ordinary error return (unreachable,
since runHook never fails -- kept to mirror the source's err propagation),
or the uncaught panic raised by the unhandled default case of
destroyDependency's scope switch. -/
inductive DOut where
  | ok
  | hookFailed
  | panicked
deriving DecidableEq

/-- Fold of runHook OnDestroy over the request-scope instancePool (the
sync.Map Range in destroyDependency).  The Range would stop at the first
hook failure, but runHook always returns nil without invoking anything (see
runHookM), so the fold is a no-op; the failure arm mirrors the source. -/
def destroyPool (c : Ctr) (t : Nat) (h : HookSpec) : List (Nat × Nat) → DOut × Ctr
  | [] => (.ok, c)
  | _ :: rest =>
    match runHookM c h.onDestroy (.destroyHook t) with
    | (.error _, c') => (.hookFailed, c')
    | (.ok _, c') => destroyPool c' t h rest

/-- destroyDependency: a no-op without hooks; for Singleton calls runHook
OnDestroy on the cached instance when one exists (the entry is not evicted,
and the call invokes nothing -- see runHookM); for Request folds runHook
over the pool; every other scope -- Prototype included -- hits
panic("unhandled default case"). -/
def destroyDependencyP1 (c : Ctr) (t : Nat) (info : DepInfo) : DOut × Ctr :=
  match info.hooks with
  | none => (.ok, c)
  | some h =>
    match info.scope with
    | .singleton =>
      match info.inst with
      | some _ =>
        match runHookM c h.onDestroy (.destroyHook t) with
        | (.error _, c') => (.hookFailed, c')
        | (.ok _, c') => (.ok, c')
      | none => (.ok, c)
    | .request => destroyPool c t h info.pool
    | .prototype => (.panicked, c)

/-- Iteration of Destroy over the registration entries, aborting at the first
failing (or panicking) destroyDependency. -/
def destroyGo (c : Ctr) : List ((Nat × String) × DepInfo) → DOut × Ctr
  | [] => (.ok, c)
  | ((t, _), info) :: rest =>
    match destroyDependencyP1 c t info with
    | (.ok, c') => destroyGo c' rest
    | (.hookFailed, c') => (.hookFailed, c')
    | (.panicked, c') => (.panicked, c')

/-- Destroy: runs destroyDependency for every registration.  The registry is
left untouched (no eviction happens anywhere on this path). -/
def destroyP1 (c : Ctr) : DOut × Ctr := destroyGo c c.deps

/-- Reflective description of one struct field as AutoWire sees it: whether
the field is settable, its name (for error messages), the value of its
autowire tag (the empty string when the tag is absent), and its declared
type. -/
structure FieldSpec where
  canSet : Bool
  fieldName : String
  tag : String
  fieldType : Nat
deriving DecidableEq

/-- AutoWire's field loop: unsettable and untagged fields are skipped; for a
tagged field the tag becomes the name option unless it is the "-" sentinel,
in which case no option is passed (note: the field is still resolved, under
the default name); the first resolution failure aborts with the field name
attached; on success the field is assigned.  The returned list collects the
assignments (field name, assigned instance) in order. -/
def autoWireGo (fuel : Nat) (c : Ctr) :
    List FieldSpec → Except Err Unit × Ctr × List (String × Option Nat)
  | [] => (.ok (), c, [])
  | fd :: rest =>
    if ¬ fd.canSet then autoWireGo fuel c rest
    else if fd.tag = "" then autoWireGo fuel c rest
    else
      let name := if fd.tag = "-" then "" else fd.tag
      match resolveP1 fuel c fd.fieldType name with
      | (.error e, c') => (.error (.autoWireFailed fd.fieldName e), c', [])
      | (.ok v, c') =>
        match autoWireGo fuel c' rest with
        | (r, c'', asg) => (r, c'', (fd.fieldName, v) :: asg)

/-- State of one singleton registration as resolveSingleton manipulates it:
the sync.Once guard, the atomic.Value slot, and a count of recipe
invocations (how many times the once body has run construct). -/
structure SingletonSlot where
  initDone : Bool
  inst : Option Nat
  calls : Nat
deriving DecidableEq

/-- Fresh slot of a new registration. -/
def freshSlot : SingletonSlot := { initDone := false, inst := none, calls := 0 }

/-- resolveSingleton (source lines around initOnce.Do), with construct
abstracted as an oracle giving the outcome of the n-th recipe invocation:
when the once-guard is spent the body is skipped, the error variable stays
nil and the current content of the instance slot is returned; otherwise the
recipe runs exactly once, the instance is stored only on success, and the
guard is spent either way. -/
def resolveSingletonM (recipe : Nat → Except Unit Nat) (s : SingletonSlot) :
    Except Unit (Option Nat) × SingletonSlot :=
  if s.initDone then (.ok s.inst, s)
  else
    match recipe s.calls with
    | .ok v => (.ok (some v), { initDone := true, inst := some v, calls := s.calls + 1 })
    | .error e => (.error e, { initDone := true, inst := s.inst, calls := s.calls + 1 })

/-- Sequence of n resolveSingleton calls, collecting the results. -/
def runResolves (recipe : Nat → Except Unit Nat) :
    Nat → SingletonSlot → List (Except Unit (Option Nat)) × SingletonSlot
  | 0, s => ([], s)
  | n + 1, s =>
    match resolveSingletonM recipe s with
    | (r, s') =>
      match runResolves recipe n s' with
      | (rs, s'') => (r :: rs, s'')

end AutowiredV1

namespace AutowiredV2

/-- dependencyNode: the (type, name) identity used as key throughout the
Lifetime-based engine. -/
structure Node where
  t : Nat
  name : String
deriving DecidableEq

/-- Lifetime = Singleton | Scoped | Transient. -/
inductive Lifetime where
  | singleton
  | scoped
  | transient
deriving DecidableEq

/-- Registration of the Lifetime engine: lifetime, the constructor's
dependency parameter types (context.Context parameters are excluded, as in
updateDependencyGraph), a flag for a recipe that returns a failure, and the
Hooks bundle described by presence/failure flags.  Factory registrations are
not modelled (the claims under verification exercise the constructor
path). -/
structure Reg where
  lifetime : Lifetime
  params : List Nat
  ctorFails : Bool
  hasInit : Bool
  initFails : Bool
  hasStart : Bool
  startFails : Bool
  hasStop : Bool
deriving DecidableEq

/-- Events observable on the Lifetime engine. -/
inductive Ev2 where
  | ctorCalled (n : Node)
  | initHook (n : Node)
  | startHook (n : Node)
  | stopHook (n : Node)
deriving DecidableEq

/-- Container of the Lifetime engine: registrations, the singleton cache,
the startedFlag map (modelled as the list of nodes whose flag is set), an
allocation counter and the event trace.  Calls are modelled on a context
without a Scope value, so getScope yields nil and the Scoped cache branches
are skipped, exactly as for a background context. -/
structure Ctr where
  regs : List (Node × Reg)
  singletons : List (Node × Nat)
  startedFlag : List Node
  fresh : Nat
  trace : List Ev2
deriving DecidableEq

/-- Errors of the Lifetime engine's resolution path: the circular error
carries the resolution stack it is formatted with ("circular dependency
detected: %v", stack); ctorError stands for the failure value a recipe
returned (propagated unchanged by the source); initFailed mirrors the
"init hook failed" wrapper; outOfFuel bounds the embedding's recursion. -/
inductive Err2 where
  | circular (stack : List Node)
  | unregistered (n : Node)
  | ctorError (n : Node)
  | initFailed (n : Node)
  | outOfFuel
deriving DecidableEq

/-- Registration lookup c.registrations[node.t][node.name]. -/
def lookupReg (regs : List (Node × Reg)) (n : Node) : Option Reg :=
  (regs.find? (fun e => e.1 = n)).map (fun e => e.2)

/-- Association-list lookup used for the resolved map and singleton cache. -/
def lookupVal (m : List (Node × Nat)) (n : Node) : Option Nat :=
  (m.find? (fun e => e.1 = n)).map (fun e => e.2)

mutual

/-- resolveDependencies: returns immediately when the node is already in the
per-call resolved map; fails with the circular error carrying the current
stack when the node is already on the stack; looks the registration up;
serves a cached singleton; otherwise resolves the constructor parameters
recursively with the node pushed on the stack, invokes the recipe, runs the
Init hook, stores per lifetime and records the node as resolved. -/
def resolveDeps (fuel : Nat) (c : Ctr) (node : Node)
    (resolved : List (Node × Nat)) (stack : List Node) :
    Except Err2 (List (Node × Nat)) × Ctr :=
  match fuel with
  | 0 => (.error .outOfFuel, c)
  | fuel + 1 =>
    if (lookupVal resolved node).isSome then (.ok resolved, c)
    else if stack.contains node then (.error (.circular stack), c)
    else
      match lookupReg c.regs node with
      | none => (.error (.unregistered node), c)
      | some reg =>
        match if reg.lifetime = .singleton then lookupVal c.singletons node else none with
        | some v => (.ok (resolved ++ [(node, v)]), c)
        | none =>
          match resolveParamsV2 fuel c reg.params resolved (stack ++ [node]) with
          | (.error e, c') => (.error e, c')
          | (.ok resolved', c') =>
            let c2 : Ctr := { c' with trace := c'.trace ++ [.ctorCalled node] }
            if reg.ctorFails then (.error (.ctorError node), c2)
            else
              let v := c2.fresh
              let c3 : Ctr := { c2 with fresh := c2.fresh + 1 }
              let c4 : Ctr :=
                if reg.hasInit then { c3 with trace := c3.trace ++ [.initHook node] } else c3
              if reg.hasInit ∧ reg.initFails then (.error (.initFailed node), c4)
              else
                let c5 : Ctr :=
                  if reg.lifetime = .singleton then
                    { c4 with singletons := c4.singletons ++ [(node, v)] }
                  else c4
                (.ok (resolved' ++ [(node, v)]), c5)
termination_by structural fuel

/-- Parameter loop of resolveDependencies: each non-context parameter type is
resolved under the default name with the caller pushed on the stack; the
first failure propagates unchanged. -/
def resolveParamsV2 (fuel : Nat) (c : Ctr) (ps : List Nat)
    (resolved : List (Node × Nat)) (stack : List Node) :
    Except Err2 (List (Node × Nat)) × Ctr :=
  match fuel with
  | 0 => (.error .outOfFuel, c)
  | fuel + 1 =>
    match ps with
    | [] => (.ok resolved, c)
    | p :: rest =>
      match resolveDeps fuel c { t := p, name := "" } resolved stack with
      | (.error e, c') => (.error e, c')
      | (.ok resolved', c') => resolveParamsV2 fuel c' rest resolved' stack
termination_by structural fuel

end

/-- ResolveNamed: runs resolveDependencies with a fresh resolved map and a
nil stack and reads the requested node's instance out of the map. -/
def resolveNamedV2 (fuel : Nat) (c : Ctr) (t : Nat) (name : String) :
    Except Err2 (Option Nat) × Ctr :=
  let node : Node := { t := t, name := name }
  match resolveDeps fuel c node [] [] with
  | (.error e, c') => (.error e, c')
  | (.ok resolved, c') => (.ok (lookupVal resolved node), c')

/-- Whether the registration stored for a node exists and has a Stop hook
(the reg, ok := registrations lookup followed by the hooks.Stop nil check). -/
def hasStopReg (regs : List (Node × Reg)) (n : Node) : Bool :=
  match lookupReg regs n with
  | some r => r.hasStop
  | none => false

/-- Iteration of Stop over the singleton cache: a cached instance whose
registration has a Stop hook and whose started flag is set gets the hook
invoked (its return value is discarded by the source) and its flag deleted;
everything else is skipped.  Returns the nodes invoked, in order, and the
remaining flags. -/
def stopGo (regs : List (Node × Reg)) :
    List (Node × Nat) → List Node → List Node × List Node
  | [], flags => ([], flags)
  | (node, _) :: rest, flags =>
    if hasStopReg regs node ∧ flags.contains node then
      (node :: (stopGo regs rest (flags.filter (fun x => ¬ x = node))).1,
        (stopGo regs rest (flags.filter (fun x => ¬ x = node))).2)
    else stopGo regs rest flags

/-- Stop: walks the singleton cache running Stop hooks for started instances
and deleting their started flags; the singleton cache itself is not
touched. -/
def stopV2 (c : Ctr) : List Node × Ctr :=
  match stopGo c.regs c.singletons c.startedFlag with
  | (inv, flags') =>
    (inv, { c with startedFlag := flags', trace := c.trace ++ inv.map (fun n => .stopHook n) })

end AutowiredV2

section Fixtures

open AutowiredV1 AutowiredV2

/-- Shape of a well-formed constructor func() (T, error). -/
def okShape : FuncShape := { isFunc := true, numOut := 2, out1IsError := true }

/-- Container with a Singleton registration (type id 0) whose recipe returns
a failure. -/
def v1FailCtorCtr : AutowiredV1.Ctr :=
  (registerDep newContainer okShape 0 [] true none none none).2

/-- Container with a Request-scoped registration (type id 0). -/
def v1RequestCtr : AutowiredV1.Ctr :=
  (registerDep newContainer okShape 0 [] false none (some .request) none).2

/-- Container with the two-identity cycle of the Scope engine: type 0's
recipe takes a parameter of type 1 and type 1's recipe takes a parameter of
type 0, both Singleton. -/
def v1CycleCtr : AutowiredV1.Ctr :=
  (registerDep (registerDep newContainer okShape 0 [1] false none none none).2
    okShape 1 [0] false none none none).2

/-- Container with a Singleton registration carrying the given hook
bundle. -/
def v1HookCtr (hs : HookSpec) : AutowiredV1.Ctr :=
  (registerDep newContainer okShape 0 [] false none none (some hs)).2

/-- Container with a Prototype-scoped registration with lifecycle hooks. -/
def v1ProtoHookCtr : AutowiredV1.Ctr :=
  (registerDep newContainer okShape 0 [] false none (some .prototype)
    (some { onInit := none, onStart := none, onDestroy := some false })).2

/-- Registration of the Lifetime engine whose constructor takes the given
parameter types, Singleton, hook-free, succeeding recipe. -/
def v2PlainReg (ps : List Nat) : Reg :=
  { lifetime := .singleton, params := ps, ctorFails := false, hasInit := false,
    initFails := false, hasStart := false, startFails := false, hasStop := false }

/-- Container of the Lifetime engine with the two-identity cycle: type 0
depends on type 1 and type 1 depends back on type 0. -/
def v2CycleCtr : AutowiredV2.Ctr :=
  { regs := [({ t := 0, name := "" }, v2PlainReg [1]), ({ t := 1, name := "" }, v2PlainReg [0])],
    singletons := [], startedFlag := [], fresh := 0, trace := [] }

/-- Lifetime-engine container holding one started, cached singleton whose
registration has a Stop hook. -/
def v2StartedCtr : AutowiredV2.Ctr :=
  { regs := [({ t := 0, name := "" }, { v2PlainReg [] with hasStop := true })],
    singletons := [({ t := 0, name := "" }, 7)],
    startedFlag := [{ t := 0, name := "" }], fresh := 8, trace := [] }

/-- Container for the C4 witness: a hook-carrying Singleton registration
over an initial trace that already holds one Start event, so that the
claim's hypothesis can be discharged at a concrete input. -/
def c4WitnessCtr : AutowiredV1.Ctr :=
  { v1HookCtr { onInit := some false, onStart := some false, onDestroy := none } with
    trace := [Ev.startHook 0] }

end Fixtures

section ClaimTheorems

open AutowiredV1 AutowiredV2

/-- C2 counterexample.  In the Scope engine, resolving the root of a direct
two-identity cycle (type 0's recipe needs type 1, type 1's recipe needs type
0) fails with an error whose CircularDependency payload carries only the
single repeated type id 0, wrapped in two parameter-resolution layers -- it
does not report the cycle as an ordered list of identities from the root
call to the repeated identity.  No recipe is ever invoked (the event trace
stays empty). -/
theorem c2_cycle_reported_as_single_type :
    (resolveP1 9 v1CycleCtr 0 "").1
      = .error (.paramFailed 0 1 (.paramFailed 0 0 (.circular 0))) ∧
    (resolveP1 9 v1CycleCtr 0 "").2.trace = [] := by
  constructor <;> rfl

/-- C2 (amended).  Resolving an identity whose recipe depends on a second
identity whose recipe depends back on the first fails with a
CircularDependency error and constructs neither instance; the Lifetime
engine reports the cycle as the resolution stack from the root call
([identity 0, identity 1] here, the repeated identity heading the list),
while the Scope engine reports only the repeated type. -/
theorem c2_cycle_detected_no_construction :
    (resolveNamedV2 9 v2CycleCtr 0 "").1
      = .error (.circular [{ t := 0, name := "" }, { t := 1, name := "" }]) ∧
    (resolveNamedV2 9 v2CycleCtr 0 "").2.trace = [] ∧
    (resolveP1 9 v1CycleCtr 0 "").1
      = .error (.paramFailed 0 1 (.paramFailed 0 0 (.circular 0))) ∧
    (resolveP1 9 v1CycleCtr 0 "").2.trace = [] := by
  refine ⟨?_, ?_, ?_, ?_⟩ <;> rfl

/-- C3.  Two successive resolves of a Request-scoped identity issued from
the same logical request never share an instance: getGoroutineID allocates a
fresh channel and returns its pointer, so every resolve computes a distinct
pool key, misses the cache, and runs the recipe again (two ctorCalled
events), contradicting the documented once-per-goroutine caching. -/
theorem c3_request_scope_never_hits_cache :
    (resolveP1 9 v1RequestCtr 0 "").1 = .ok (some 1) ∧
    (resolveP1 9 (resolveP1 9 v1RequestCtr 0 "").2 0 "").1 = .ok (some 3) ∧
    (resolveP1 9 (resolveP1 9 v1RequestCtr 0 "").2 0 "").2.trace
      = [.ctorCalled 0, .ctorCalled 0] := by
  refine ⟨?_, ?_, ?_⟩ <;> rfl

/-- C5.  Singleton whose recipe fails: the first resolve reports the
construction failure and caches nothing (the instance slot stays empty), but
the once-guard is spent, so the second resolve of the same identity SUCCEEDS
returning an absent (nil) instance -- the error variable is left nil when
the once body is skipped and the empty slot is returned.  After re-registering
the identity with a fixed recipe, resolve succeeds with a real instance. -/
theorem c5_failed_singleton_then_nil_success :
    (resolveP1 9 v1FailCtorCtr 0 "").1 = .error .constructionFailed ∧
    findDep (resolveP1 9 v1FailCtorCtr 0 "").2 0 "0"
      = some { params := [], scope := .singleton, hooks := none, ctorFails := true,
               initDone := true, inst := none, pool := [] } ∧
    (resolveP1 9 (resolveP1 9 v1FailCtorCtr 0 "").2 0 "").1 = .ok none ∧
    (resolveP1 9
      (registerDep (resolveP1 9 (resolveP1 9 v1FailCtorCtr 0 "").2 0 "").2
        okShape 0 [] false none none none).2 0 "").1 = .ok (some 0) := by
  refine ⟨?_, ?_, ?_, ?_⟩ <;> rfl

/-- C7.  Register's shape validation rejects a non-function, a constructor
with zero return values and a constructor whose second return value is not
an error, but it ACCEPTS a constructor with three return values and stores a
registration for it, although its own contract demands exactly (T) or
(T, error). -/
theorem c7_three_returns_accepted :
    (registerDep newContainer { isFunc := false, numOut := 1, out1IsError := true }
      0 [] false none none none).1 = .error .notFunction ∧
    (registerDep newContainer { isFunc := true, numOut := 0, out1IsError := true }
      0 [] false none none none).1 = .error .invalidShape ∧
    (registerDep newContainer { isFunc := true, numOut := 2, out1IsError := false }
      0 [] false none none none).1 = .error .invalidShape ∧
    (registerDep newContainer { isFunc := true, numOut := 3, out1IsError := false }
      0 [] false none none none).1 = .ok () ∧
    findDep (registerDep newContainer { isFunc := true, numOut := 3, out1IsError := false }
      0 [] false none none none).2 0 "0"
      = some { params := [], scope := .singleton, hooks := none, ctorFails := false,
               initDone := false, inst := none, pool := [] } := by
  refine ⟨?_, ?_, ?_, ?_, ?_⟩ <;> rfl

/-- C8.  A field whose autowire tag is the "-" skip sentinel is NOT left
untouched: AutoWire strips the sentinel from the name options but still
resolves the field's type under the default name.  On a container with
nothing registered the whole operation therefore aborts with a
field-labelled resolution error, and on a container where the type is
registered the field is assigned the resolved instance. -/
theorem c8_skip_sentinel_field_still_resolved :
    (autoWireGo 9 newContainer
      [{ canSet := true, fieldName := "Service", tag := "-", fieldType := 0 }]).1
      = .error (.autoWireFailed "Service" (.unregisteredType 0)) ∧
    (autoWireGo 9 (registerDep newContainer okShape 0 [] false none none none).2
      [{ canSet := true, fieldName := "Service", tag := "-", fieldType := 0 }]).2.2
      = [("Service", some 0)] := by
  constructor <;> rfl

/-- C9.  Destroy on a container holding a Prototype-scoped registration with
lifecycle hooks does not return an error value: destroyDependency's scope
switch has no Prototype case and its default case raises
panic("unhandled default case"). -/
theorem c9_destroy_prototype_panics :
    (destroyP1 v1ProtoHookCtr).1 = .panicked := by
  rfl

end ClaimTheorems

section SingletonOnce

open AutowiredV1

/-- Once the once-guard of a singleton slot is spent, every further
resolveSingleton call returns the current content of the instance slot and
leaves the slot unchanged. -/
theorem runResolves_done (recipe : Nat → Except Unit Nat) (n : Nat) (s : SingletonSlot)
    (h : s.initDone = true) :
    runResolves recipe n s = (List.replicate n (.ok s.inst), s) := by
  induction n with
  | zero => simp [runResolves]
  | succ n ih => simp [runResolves, resolveSingletonM, h, ih, List.replicate_succ]

/-- C1.  For a fresh Singleton registration, any number of sequential
resolveSingleton calls runs the recipe at most once (the invocation count of
the final slot never exceeds one), and any two calls that return without an
error return the same instance. -/
theorem c1_singleton_recipe_once_and_shared (recipe : Nat → Except Unit Nat) (n : Nat) :
    (runResolves recipe n freshSlot).2.calls ≤ 1 ∧
    ∀ r1 ∈ (runResolves recipe n freshSlot).1, ∀ r2 ∈ (runResolves recipe n freshSlot).1,
      ∀ a b, r1 = .ok a → r2 = .ok b → a = b := by
  cases n with
  | zero =>
    constructor
    · simp [runResolves, freshSlot]
    · intro r1 h1
      simp [runResolves] at h1
  | succ n =>
    cases hrec : recipe 0 with
    | ok v =>
      have hstep : resolveSingletonM recipe freshSlot
          = (.ok (some v), { initDone := true, inst := some v, calls := 1 }) := by
        simp [resolveSingletonM, freshSlot, hrec]
      have hrest := runResolves_done recipe n
        { initDone := true, inst := some v, calls := 1 } rfl
      constructor
      · simp [runResolves, hstep, hrest]
      · intro r1 h1 r2 h2 a b e1 e2
        have hrun : (runResolves recipe (n + 1) freshSlot).1
            = .ok (some v) :: List.replicate n (.ok (some v)) := by
          simp [runResolves, hstep, hrest]
        rw [hrun, List.mem_cons] at h1 h2
        have f1 : r1 = Except.ok (some v) := by
          rcases h1 with h | h
          · exact h
          · exact List.eq_of_mem_replicate h
        have f2 : r2 = Except.ok (some v) := by
          rcases h2 with h | h
          · exact h
          · exact List.eq_of_mem_replicate h
        rw [f1] at e1
        rw [f2] at e2
        rw [← Except.ok.inj e1, ← Except.ok.inj e2]
    | error ex =>
      have hstep : resolveSingletonM recipe freshSlot
          = (.error ex, { initDone := true, inst := none, calls := 1 }) := by
        simp [resolveSingletonM, freshSlot, hrec]
      have hrest := runResolves_done recipe n
        { initDone := true, inst := none, calls := 1 } rfl
      constructor
      · simp [runResolves, hstep, hrest]
      · intro r1 h1 r2 h2 a b e1 e2
        have hrun : (runResolves recipe (n + 1) freshSlot).1
            = .error ex :: List.replicate n (.ok none) := by
          simp [runResolves, hstep, hrest]
        rw [hrun, List.mem_cons] at h1 h2
        have f1 : a = none := by
          rcases h1 with h | h
          · rw [h] at e1; exact absurd e1 (by simp)
          · rw [List.eq_of_mem_replicate h] at e1; exact (Except.ok.inj e1).symm
        have f2 : b = none := by
          rcases h2 with h | h
          · rw [h] at e2; exact absurd e2 (by simp)
          · rw [List.eq_of_mem_replicate h] at e2; exact (Except.ok.inj e2).symm
        rw [f1, f2]

/-- C1 witness: three resolves of a singleton whose recipe yields instance
42 run the recipe at most once, and the first two results agree. -/
theorem c1_singleton_recipe_once_and_shared_witness :
    (runResolves (fun _ => .ok 42) 3 freshSlot).2.calls ≤ 1 ∧ (some 42 : Option Nat) = some 42 :=
  ⟨(c1_singleton_recipe_once_and_shared (fun _ => .ok 42) 3).1,
    (c1_singleton_recipe_once_and_shared (fun _ => .ok 42) 3).2
      (.ok (some 42)) (by decide) (.ok (some 42)) (by decide) (some 42) (some 42) rfl rfl⟩

end SingletonOnce

section StopOnce

open AutowiredV2

/-- The started-flag list only shrinks across a Stop pass. -/
theorem stopGo_flags_subset (regs : List (Node × Reg)) :
    ∀ (singles : List (Node × Nat)) (flags : List Node) (x : Node),
      x ∈ (stopGo regs singles flags).2 → x ∈ flags := by
  intro singles
  induction singles with
  | nil => intro flags x h; simpa [stopGo] using h
  | cons hd rest ih =>
    intro flags x h
    obtain ⟨node, v⟩ := hd
    rw [stopGo] at h
    by_cases hc : hasStopReg regs node = true ∧ flags.contains node = true
    · rw [if_pos hc] at h
      have h2 := ih (flags.filter (fun y => ¬ y = node)) x h
      exact List.mem_of_mem_filter h2
    · rw [if_neg hc] at h
      exact ih flags x h

/-- After one Stop pass, no node of the singleton cache whose registration
has a Stop hook still carries a started flag. -/
theorem stopGo_clears_flags (regs : List (Node × Reg)) :
    ∀ (singles : List (Node × Nat)) (flags : List Node) (n : Node) (v : Nat),
      (n, v) ∈ singles → hasStopReg regs n = true →
      n ∉ (stopGo regs singles flags).2 := by
  intro singles
  induction singles with
  | nil => intro flags n v h; exact absurd h (List.not_mem_nil (n, v))
  | cons hd rest ih =>
    intro flags n v hmem hstop
    obtain ⟨node, v0⟩ := hd
    rw [List.mem_cons] at hmem
    rw [stopGo]
    rcases hmem with heq | hmem
    · have hn : n = node := congrArg Prod.fst heq
      subst hn
      by_cases hc : hasStopReg regs n = true ∧ flags.contains n = true
      · rw [if_pos hc]
        intro hin
        have h2 := stopGo_flags_subset regs rest (flags.filter (fun y => ¬ y = n)) n hin
        rw [List.mem_filter] at h2
        simp at h2
      · rw [if_neg hc]
        intro hin
        have h2 := stopGo_flags_subset regs rest flags n hin
        exact hc ⟨hstop, List.elem_eq_true_of_mem h2⟩
    · by_cases hc : hasStopReg regs node = true ∧ flags.contains node = true
      · rw [if_pos hc]
        exact ih (flags.filter (fun y => ¬ y = node)) n v hmem hstop
      · rw [if_neg hc]
        exact ih flags n v hmem hstop

/-- A Stop pass over a flag list in which no stop-hooked cached node is
flagged invokes nothing. -/
theorem stopGo_no_invocations (regs : List (Node × Reg)) :
    ∀ (singles : List (Node × Nat)) (flags : List Node),
      (∀ n v, (n, v) ∈ singles → hasStopReg regs n = true → n ∉ flags) →
      (stopGo regs singles flags).1 = [] := by
  intro singles
  induction singles with
  | nil => intro flags _; rfl
  | cons hd rest ih =>
    intro flags hyp
    obtain ⟨node, v0⟩ := hd
    rw [stopGo]
    by_cases hc : hasStopReg regs node = true ∧ flags.contains node = true
    · exfalso
      have := hyp node v0 (List.mem_cons_self ..) hc.1
      exact this (List.mem_of_elem_eq_true hc.2)
    · rw [if_neg hc]
      exact ih flags (fun n v hm hs => hyp n v (List.mem_cons_of_mem _ hm) hs)

/-- Every node a Stop pass invokes was flagged as started and present in the
singleton cache. -/
theorem stopGo_invoked_flagged (regs : List (Node × Reg)) :
    ∀ (singles : List (Node × Nat)) (flags : List Node) (n : Node),
      n ∈ (stopGo regs singles flags).1 →
      n ∈ flags ∧ ∃ v, (n, v) ∈ singles := by
  intro singles
  induction singles with
  | nil => intro flags n h; simp [stopGo] at h
  | cons hd rest ih =>
    intro flags n h
    obtain ⟨node, v0⟩ := hd
    rw [stopGo] at h
    by_cases hc : hasStopReg regs node = true ∧ flags.contains node = true
    · rw [if_pos hc] at h
      rw [List.mem_cons] at h
      rcases h with rfl | h
      · exact ⟨List.mem_of_elem_eq_true hc.2, v0, List.mem_cons_self ..⟩
      · obtain ⟨h1, v, h2⟩ := ih (flags.filter (fun y => ¬ y = node)) n h
        exact ⟨List.mem_of_mem_filter h1, v, List.mem_cons_of_mem _ h2⟩
    · rw [if_neg hc] at h
      obtain ⟨h1, v, h2⟩ := ih flags n h
      exact ⟨h1, v, List.mem_cons_of_mem _ h2⟩

/-- Stop leaves the registrations untouched. -/
theorem stopV2_regs (c : AutowiredV2.Ctr) : (stopV2 c).2.regs = c.regs := rfl

/-- Stop leaves the singleton cache untouched (no eviction of instances). -/
theorem stopV2_singletons (c : AutowiredV2.Ctr) :
    (stopV2 c).2.singletons = c.singletons := rfl

/-- Stop replaces the started flags by what the pass leaves over. -/
theorem stopV2_flags (c : AutowiredV2.Ctr) :
    (stopV2 c).2.startedFlag = (stopGo c.regs c.singletons c.startedFlag).2 := rfl

/-- The invocations of Stop are those of the underlying pass. -/
theorem stopV2_fst (c : AutowiredV2.Ctr) :
    (stopV2 c).1 = (stopGo c.regs c.singletons c.startedFlag).1 := rfl

end StopOnce

section MarkerCleanup

open AutowiredV1

/-- updateDep leaves the currently-resolving set untouched. -/
theorem updateDep_resolving (c : Ctr) (t : Nat) (n : String) (info : DepInfo) :
    (updateDep c t n info).resolving = c.resolving := rfl

/-- pushEv leaves the currently-resolving set untouched. -/
theorem pushEv_resolving (c : Ctr) (e : Ev) : (pushEv c e).resolving = c.resolving := rfl

/-- Running a hook leaves the currently-resolving set untouched. -/
theorem runHookM_resolving (c : Ctr) (hook : Option Bool) (ev : Ev) :
    (runHookM c hook ev).2.resolving = c.resolving := by
  cases hook <;> rfl

/-- Running the lifecycle-hook tail leaves the currently-resolving set
untouched. -/
theorem runLifecycleHooks_resolving (c : Ctr) (t : Nat) (v : Nat) (ho : Option HookSpec) :
    (runLifecycleHooks c t v ho).2.resolving = c.resolving := by
  cases ho with
  | none => rfl
  | some hk =>
    simp only [runLifecycleHooks]
    split
    next u c4 heq =>
      have h := runHookM_resolving c hk.onInit (.initHook t)
      rw [heq] at h
      exact h
    next u c4 heq =>
      have e1 : c4.resolving = c.resolving := by
        have h := runHookM_resolving c hk.onInit (.initHook t)
        rw [heq] at h
        exact h
      split
      next u2 c5 heq2 =>
        have h := runHookM_resolving c4 hk.onStart (.startHook t)
        rw [heq2] at h
        exact h.trans e1
      next u2 c5 heq2 =>
        have h := runHookM_resolving c4 hk.onStart (.startHook t)
        rw [heq2] at h
        exact h.trans e1

/-- Every entry point of the Scope engine restores the currently-resolving
set it was given: Resolve removes on every exit the marker it added, and the
inner construction paths never touch the set at all. -/
theorem resolving_preserved (fuel : Nat) :
    (∀ c t name, (resolveP1 fuel c t name).2.resolving = c.resolving) ∧
    (∀ c t n info, (resolveDependency fuel c t n info).2.resolving = c.resolving) ∧
    (∀ c t info, (constructP1 fuel c t info).2.resolving = c.resolving) ∧
    (∀ c ps i, (resolveParamsP1 fuel c ps i).2.resolving = c.resolving) := by
  induction fuel with
  | zero =>
    exact ⟨fun c t name => rfl, fun c t n info => rfl, fun c t info => rfl, fun c ps i => rfl⟩
  | succ fuel ih =>
    obtain ⟨ihR, ihD, ihC, ihP⟩ := ih
    refine ⟨?_, ?_, ?_, ?_⟩
    · intro c t name
      simp only [resolveP1]
      split
      · rfl
      · rcases hg : getInfo { c with resolving := t :: c.resolving } t name with e | ⟨n, info⟩
        · simp [popResolving, List.erase_cons_head]
        · simp [popResolving, ihD, List.erase_cons_head]
    · intro c t n info
      simp only [resolveDependency]
      split
      · split
        · rfl
        · rcases hC : constructP1 fuel c t info with ⟨r, c2⟩
          have hres : c2.resolving = c.resolving := by
            have h := ihC c t info
            rw [hC] at h
            exact h
          cases r with
          | ok v => simpa [updateDep] using hres
          | error e => simpa [updateDep] using hres
      · rcases hC : constructP1 fuel c t info with ⟨r, c2⟩
        have hres : c2.resolving = c.resolving := by
          have h := ihC c t info
          rw [hC] at h
          exact h
        cases r with
        | ok v => exact hres
        | error e => exact hres
      · split
        · rfl
        · rcases hC : constructP1 fuel { c with fresh := c.fresh + 1 } t info with ⟨r, c2⟩
          have hres : c2.resolving = c.resolving := by
            have h := ihC { c with fresh := c.fresh + 1 } t info
            rw [hC] at h
            exact h
          cases r with
          | ok v => simpa [updateDep] using hres
          | error e => exact hres
    · intro c t info
      simp only [constructP1]
      split
      next e c2 heq =>
        have h := ihP c info.params 0
        rw [heq] at h
        exact h
      next u c2 heq =>
        have hres : c2.resolving = c.resolving := by
          have h := ihP c info.params 0
          rw [heq] at h
          exact h
        split
        · simpa [pushEv] using hres
        · rw [runLifecycleHooks_resolving]
          simpa [pushEv] using hres
    · intro c ps i
      cases ps with
      | nil => rfl
      | cons p rest =>
        simp only [resolveParamsP1]
        rcases hR : resolveP1 fuel c p "" with ⟨r, c2⟩
        have e1 : c2.resolving = c.resolving := by
          have h := ihR c p ""
          rw [hR] at h
          exact h
        cases r with
        | error e => exact e1
        | ok u =>
          rw [ihP]
          exact e1

/-- The parameter loop only reports fuel exhaustion or a wrapped
parameter-resolution error. -/
theorem resolveParamsP1_error_shape (fuel : Nat) :
    ∀ (c : Ctr) (ps : List Nat) (i : Nat) (e : Err),
      (resolveParamsP1 fuel c ps i).1 = .error e →
      e = .outOfFuel ∨ ∃ j p e2, e = .paramFailed j p e2 := by
  induction fuel with
  | zero =>
    intro c ps i e h
    exact Or.inl (Except.error.inj h).symm
  | succ fuel ih =>
    intro c ps i e h
    cases ps with
    | nil => simp [resolveParamsP1] at h
    | cons p rest =>
      simp only [resolveParamsP1] at h
      rcases hR : resolveP1 fuel c p "" with ⟨r, c2⟩
      rw [hR] at h
      cases r with
      | error e0 => exact Or.inr ⟨i, p, e0, (Except.error.inj h).symm⟩
      | ok u => exact ih c2 rest (i + 1) e h

/-- The hook tail only reports InitFailed or StartFailed. -/
theorem runLifecycleHooks_error_shape (c : Ctr) (t : Nat) (v : Nat) (ho : Option HookSpec)
    (e : Err) (h : (runLifecycleHooks c t v ho).1 = .error e) :
    e = .initFailed ∨ e = .startFailed := by
  cases ho with
  | none => simp [runLifecycleHooks] at h
  | some hk =>
    simp only [runLifecycleHooks] at h
    split at h
    · exact Or.inl (Except.error.inj h).symm
    · split at h
      · exact Or.inr (Except.error.inj h).symm
      · simp at h

/-- construct never reports a circular-dependency error of its own: its
failures are fuel exhaustion, wrapped parameter errors, ConstructionFailed,
InitFailed or StartFailed. -/
theorem constructP1_error_not_circular (fuel : Nat) (c : Ctr) (t : Nat) (info : DepInfo)
    (e : Err) (t2 : Nat) (h : (constructP1 fuel c t info).1 = .error e) :
    e ≠ .circular t2 := by
  cases fuel with
  | zero =>
    have he : Err.outOfFuel = e := Except.error.inj h
    subst he
    simp
  | succ fuel =>
    simp only [constructP1] at h
    split at h
    next e0 c2 heq =>
      have he : e0 = e := Except.error.inj h
      subst he
      have hsh := resolveParamsP1_error_shape fuel c info.params 0 e0 (by rw [heq])
      rcases hsh with h1 | ⟨j, p, e2, h1⟩ <;> subst h1 <;> simp
    next u c2 heq =>
      split at h
      · have he : Err.constructionFailed = e := Except.error.inj h
        subst he
        simp
      · rcases runLifecycleHooks_error_shape _ _ _ _ _ h with h1 | h1 <;> subst h1 <;> simp

/-- resolveDependency never reports a circular-dependency error of its
own. -/
theorem resolveDependency_error_not_circular (fuel : Nat) (c : Ctr) (t : Nat) (n : String)
    (info : DepInfo) (e : Err) (t2 : Nat)
    (h : (resolveDependency fuel c t n info).1 = .error e) :
    e ≠ .circular t2 := by
  cases fuel with
  | zero =>
    have he : Err.outOfFuel = e := Except.error.inj h
    subst he
    simp
  | succ fuel =>
    simp only [resolveDependency] at h
    split at h
    · split at h
      · simp at h
      · split at h
        next v c2 heq => simp at h
        next e0 c2 heq =>
          have he : e0 = e := Except.error.inj h
          subst he
          exact constructP1_error_not_circular fuel c t info e0 t2 (by rw [heq])
    · split at h
      next v c2 heq => simp at h
      next e0 c2 heq =>
        have he : e0 = e := Except.error.inj h
        subst he
        exact constructP1_error_not_circular fuel c t info e0 t2 (by rw [heq])
    · split at h
      next v heq => simp at h
      next heq =>
        split at h
        next v c2 heq2 => simp at h
        next e0 c2 heq2 =>
          have he : e0 = e := Except.error.inj h
          subst he
          exact constructP1_error_not_circular fuel _ t info e0 t2 (by rw [heq2])

/-- getDependencyInfo only reports unregistered-identity errors. -/
theorem getInfo_error_shape (c : Ctr) (t : Nat) (name : String) (e : Err)
    (h : getInfo c t name = .error e) :
    e = .unregisteredType t ∨ ∃ n2, e = .unregisteredName t n2 := by
  unfold getInfo at h
  split at h
  · exact Or.inl (Except.error.inj h).symm
  · split at h
    · exact Or.inr ⟨_, (Except.error.inj h).symm⟩
    · simp at h

/-- When the requested type carries no marker on entry, the result of
Resolve is never the bare circular-dependency error: the entry check is the
only producer of that error, and every nested occurrence is wrapped in a
parameter-resolution error. -/
theorem resolveP1_error_not_circular (fuel : Nat) (c : Ctr) (t : Nat) (name : String)
    (e : Err) (t2 : Nat) (hc : c.resolving.contains t = false)
    (h : (resolveP1 fuel c t name).1 = .error e) :
    e ≠ .circular t2 := by
  cases fuel with
  | zero =>
    have he : Err.outOfFuel = e := Except.error.inj h
    subst he
    simp
  | succ fuel =>
    simp only [resolveP1, hc] at h
    rcases hg : getInfo { c with resolving := t :: c.resolving } t name with e1 | ⟨n, info⟩
    · rw [hg] at h
      have he : e1 = e := Except.error.inj h
      subst he
      rcases getInfo_error_shape _ _ _ _ hg with h1 | ⟨n2, h1⟩ <;> subst h1 <;> simp
    · rw [hg] at h
      exact resolveDependency_error_not_circular fuel _ t n info e t2 h

/-- C10.  A top-level Resolve entered with an empty currently-resolving set
leaves the set empty again whatever it returns (the deferred marker removal
runs on every exit path), and consequently a later Resolve of the same type
on the resulting container is never rejected by the entry cycle check (its
result is never the bare circular-dependency error). -/
theorem c10_resolving_marker_always_removed (fuel : Nat) (c : Ctr) (t : Nat) (name : String)
    (h : c.resolving = []) :
    (resolveP1 fuel c t name).2.resolving = [] ∧
    ∀ (fuel2 : Nat) (e : Err) (t2 : Nat),
      (resolveP1 fuel2 (resolveP1 fuel c t name).2 t name).1 = .error e →
      e ≠ .circular t2 := by
  have h1 : (resolveP1 fuel c t name).2.resolving = c.resolving :=
    (resolving_preserved fuel).1 c t name
  constructor
  · rw [h1, h]
  · intro fuel2 e t2 he
    apply resolveP1_error_not_circular fuel2 _ t name e t2 _ he
    rw [h1, h]
    rfl

/-- C10 witness: resolving an unregistered type on a fresh container leaves
the currently-resolving set empty. -/
theorem c10_resolving_marker_always_removed_witness :
    (resolveP1 5 newContainer 0 "").2.resolving = [] :=
  (c10_resolving_marker_always_removed 5 newContainer 0 "" rfl).1

end MarkerCleanup

section HookRunnerFacts

open AutowiredV1 AutowiredV2

/-- The lifecycle-hook tail of construct is the identity on the container
and hands the instance through: neither runHook call finds a method to
invoke. -/
theorem runLifecycleHooks_eq (c : AutowiredV1.Ctr) (t v : Nat) (ho : Option HookSpec) :
    runLifecycleHooks c t v ho = (.ok v, c) := by
  cases ho <;> rfl

/-- A resolve in the Scope engine can add only recipe-invocation events to
the trace: every event of the resulting trace was already present or is a
ctorCalled.  In particular no lifecycle-hook event is ever emitted during
resolution. -/
theorem trace_only_ctor (fuel : Nat) :
    (∀ c t name e, e ∈ (resolveP1 fuel c t name).2.trace →
      e ∈ c.trace ∨ ∃ s, e = Ev.ctorCalled s) ∧
    (∀ c t n info e, e ∈ (resolveDependency fuel c t n info).2.trace →
      e ∈ c.trace ∨ ∃ s, e = Ev.ctorCalled s) ∧
    (∀ c t info e, e ∈ (constructP1 fuel c t info).2.trace →
      e ∈ c.trace ∨ ∃ s, e = Ev.ctorCalled s) ∧
    (∀ c ps i e, e ∈ (resolveParamsP1 fuel c ps i).2.trace →
      e ∈ c.trace ∨ ∃ s, e = Ev.ctorCalled s) := by
  induction fuel with
  | zero =>
    exact ⟨fun c t name e h => Or.inl h, fun c t n info e h => Or.inl h,
      fun c t info e h => Or.inl h, fun c ps i e h => Or.inl h⟩
  | succ fuel ih =>
    obtain ⟨ihR, ihD, ihC, ihP⟩ := ih
    refine ⟨?_, ?_, ?_, ?_⟩
    · intro c t name e h
      simp only [resolveP1] at h
      split at h
      · exact Or.inl h
      · split at h
        next e2 heq => exact Or.inl h
        next n info heq =>
          exact ihD { c with resolving := t :: c.resolving } t n info e h
    · intro c t n info e h
      simp only [resolveDependency] at h
      split at h
      · split at h
        · exact Or.inl h
        · split at h
          next v c2 heq => exact ihC c t info e (by rw [heq]; exact h)
          next e2 c2 heq => exact ihC c t info e (by rw [heq]; exact h)
      · split at h
        next v c2 heq => exact ihC c t info e (by rw [heq]; exact h)
        next e2 c2 heq => exact ihC c t info e (by rw [heq]; exact h)
      · split at h
        next v heq => exact Or.inl h
        next heq =>
          split at h
          next v c2 heq2 =>
            exact ihC { c with fresh := c.fresh + 1 } t info e (by rw [heq2]; exact h)
          next e2 c2 heq2 =>
            exact ihC { c with fresh := c.fresh + 1 } t info e (by rw [heq2]; exact h)
    · intro c t info e h
      simp only [constructP1] at h
      split at h
      next e2 c2 heq => exact ihP c info.params 0 e (by rw [heq]; exact h)
      next u c2 heq =>
        split at h
        · rcases List.mem_append.mp h with h2 | h2
          · exact ihP c info.params 0 e (by rw [heq]; exact h2)
          · exact Or.inr ⟨t, List.mem_singleton.mp h2⟩
        · rw [runLifecycleHooks_eq] at h
          rcases List.mem_append.mp h with h2 | h2
          · exact ihP c info.params 0 e (by rw [heq]; exact h2)
          · exact Or.inr ⟨t, List.mem_singleton.mp h2⟩
    · intro c ps i e h
      cases ps with
      | nil => exact Or.inl h
      | cons p rest =>
        simp only [resolveParamsP1] at h
        split at h
        next e2 c2 heq => exact ihR c p "" e (by rw [heq]; exact h)
        next u c2 heq =>
          rcases ihP c2 rest (i + 1) e h with h2 | h2
          · exact ihR c p "" e (by rw [heq]; exact h2)
          · exact Or.inr h2

/-- The Lifetime engine's recursive resolution never emits a Start event:
resolveDependencies runs only the recipe and the Init hook. -/
theorem v2_resolve_no_start_hook (fuel : Nat) :
    (∀ c node resolved stack s,
      Ev2.startHook s ∈ (resolveDeps fuel c node resolved stack).2.trace →
      Ev2.startHook s ∈ c.trace) ∧
    (∀ c ps resolved stack s,
      Ev2.startHook s ∈ (resolveParamsV2 fuel c ps resolved stack).2.trace →
      Ev2.startHook s ∈ c.trace) := by
  induction fuel with
  | zero =>
    exact ⟨fun c _ _ _ s h => h, fun c _ _ _ s h => h⟩
  | succ fuel ih =>
    obtain ⟨ihR, ihP⟩ := ih
    constructor
    · intro c node resolved stack s h
      simp only [resolveDeps] at h
      split at h
      · exact h
      · split at h
        · exact h
        · split at h
          next heq3 => exact h
          next reg heq3 =>
            split at h
            next v heq4 => exact h
            next heq4 =>
              split at h
              next e2 c2 heq5 =>
                exact ihP c reg.params resolved (stack ++ [node]) s (by rw [heq5]; exact h)
              next resolved2 c2 heq5 =>
                split at h
                · simp at h
                  exact ihP c reg.params resolved (stack ++ [node]) s (by rw [heq5]; exact h)
                · split at h
                  · split at h <;>
                      (simp at h
                       exact ihP c reg.params resolved (stack ++ [node]) s (by rw [heq5]; exact h))
                  · split at h <;> split at h <;>
                      (simp at h
                       exact ihP c reg.params resolved (stack ++ [node]) s (by rw [heq5]; exact h))
    · intro c ps resolved stack s h
      cases ps with
      | nil => exact h
      | cons p rest =>
        simp only [resolveParamsV2] at h
        split at h
        next e2 c2 heq =>
          exact ihR c { t := p, name := "" } resolved stack s (by rw [heq]; exact h)
        next resolved2 c2 heq =>
          have h2 := ihP c2 rest resolved2 stack s h
          exact ihR c { t := p, name := "" } resolved stack s (by rw [heq]; exact h2)

/-- C4.  OnStart is never invoked during a resolve.  In the Scope engine a
resolve emits no lifecycle-hook event at all -- runHook's MethodByName
lookup never finds the func-typed hook fields -- so a resolve can only add
recipe-invocation events to the trace; in particular no OnStart event ever
appears during a resolve (and a fortiori OnStart never precedes OnInit
there).  In the Lifetime engine, resolveDependencies runs only the Init
hook, the Start hook being reserved to the explicit Start pass, so a
resolve never adds a Start event either. -/
theorem c4_no_start_hook_during_resolve :
    (∀ (fuel : Nat) (c : AutowiredV1.Ctr) (t : Nat) (name : String) (s : Nat),
      Ev.startHook s ∈ (resolveP1 fuel c t name).2.trace → Ev.startHook s ∈ c.trace) ∧
    (∀ (fuel : Nat) (c : AutowiredV2.Ctr) (t : Nat) (name : String) (s : AutowiredV2.Node),
      Ev2.startHook s ∈ (resolveNamedV2 fuel c t name).2.trace → Ev2.startHook s ∈ c.trace) := by
  constructor
  · intro fuel c t name s h
    rcases (trace_only_ctor fuel).1 c t name _ h with h2 | ⟨s2, h2⟩
    · exact h2
    · exact absurd h2 (by simp)
  · intro fuel c t name s h
    simp only [resolveNamedV2] at h
    split at h
    next e2 c2 heq =>
      exact (v2_resolve_no_start_hook fuel).1 c { t := t, name := name } [] [] s
        (by rw [heq]; exact h)
    next resolved c2 heq =>
      exact (v2_resolve_no_start_hook fuel).1 c { t := t, name := name } [] [] s
        (by rw [heq]; exact h)

/-- C4 witness: on a container whose initial trace already holds a Start
event, a concrete resolve of the hook-carrying registration is shown to add
no Start event (the one in the result's trace was already there). -/
theorem c4_no_start_hook_during_resolve_witness :
    Ev.startHook 0 ∈ c4WitnessCtr.trace :=
  c4_no_start_hook_during_resolve.1 9 c4WitnessCtr 0 "" 0 (by decide)

/-- The Range fold of destroyDependency over the request pool changes
nothing: runHook never invokes the OnDestroy hook. -/
theorem destroyPool_state (t : Nat) (hk : HookSpec) :
    ∀ (l : List (Nat × Nat)) (c : AutowiredV1.Ctr), destroyPool c t hk l = (.ok, c) := by
  intro l
  induction l with
  | nil => intro c; rfl
  | cons x rest ih => intro c; exact ih c

/-- destroyDependency leaves the container untouched on the non-panicking
paths: no OnDestroy invocation ever happens. -/
theorem destroyDependencyP1_state (c : AutowiredV1.Ctr) (t : Nat) (info : DepInfo) :
    (destroyDependencyP1 c t info).2 = c := by
  simp only [destroyDependencyP1]
  split
  · rfl
  next hk =>
    split
    · split
      · rfl
      · rfl
    · rw [destroyPool_state]
    · rfl

/-- The Destroy iteration leaves the container untouched. -/
theorem destroyGo_state :
    ∀ (l : List ((Nat × String) × DepInfo)) (c : AutowiredV1.Ctr), (destroyGo c l).2 = c := by
  intro l
  induction l with
  | nil => intro c; rfl
  | cons hd rest ih =>
    intro c
    obtain ⟨⟨t, n⟩, info⟩ := hd
    simp only [destroyGo]
    split
    next c2 heq =>
      have h2 : c2 = c := by
        have h := destroyDependencyP1_state c t info
        rw [heq] at h
        exact h
      rw [ih c2]
      exact h2
    next c2 heq =>
      have h := destroyDependencyP1_state c t info
      rw [heq] at h
      exact h
    next c2 heq =>
      have h := destroyDependencyP1_state c t info
      rw [heq] at h
      exact h

/-- Destroy never changes the container: in particular no OnDestroy
invocation is recorded, and nothing is evicted. -/
theorem destroyP1_state (c : AutowiredV1.Ctr) : (destroyP1 c).2 = c :=
  destroyGo_state c.deps c

/-- C6.  OnDestroy runs at most once per cached instance, and only for
instances whose construction and initialization succeeded.  In the Scope
engine Destroy invokes no hook at all -- runHook's MethodByName lookup
never finds the func-typed OnDestroy field -- and leaves the container,
trace included, unchanged, so repeated Destroy calls trivially never
re-invoke anything.  In the Lifetime engine Stop invokes the Stop hook only
for cached singleton instances (cached only after a successful construction
and Init hook) whose started flag is set, deleting the flag entry after the
invocation, so a second Stop pass invokes no hook. -/
theorem c6_destroy_hook_at_most_once :
    (∀ c : AutowiredV1.Ctr, (destroyP1 c).2.trace = c.trace) ∧
    (∀ c : AutowiredV2.Ctr,
      (stopV2 (stopV2 c).2).1 = [] ∧
      ∀ n, n ∈ (stopV2 c).1 → n ∈ c.startedFlag ∧ ∃ v, (n, v) ∈ c.singletons) := by
  constructor
  · intro c
    rw [destroyP1_state]
  · intro c
    constructor
    · rw [stopV2_fst, stopV2_regs, stopV2_singletons, stopV2_flags]
      apply stopGo_no_invocations
      intro n v hm hs
      exact stopGo_clears_flags c.regs c.singletons c.startedFlag n v hm hs
    · intro n hn
      rw [stopV2_fst] at hn
      exact stopGo_invoked_flagged c.regs c.singletons c.startedFlag n hn

/-- C6 witness: on a container with one started, stop-hooked cached
singleton, every node Stop invokes was flagged as started and present in
the singleton cache. -/
theorem c6_destroy_hook_at_most_once_witness :
    ({ t := 0, name := "" } : AutowiredV2.Node) ∈ v2StartedCtr.startedFlag ∧
    ∃ v, (({ t := 0, name := "" } : AutowiredV2.Node), v) ∈ v2StartedCtr.singletons :=
  (c6_destroy_hook_at_most_once.2 v2StartedCtr).2 { t := 0, name := "" } (by decide)

end HookRunnerFacts
